import Mathlib

/-!
Shallow embedding of `PollReader.py`: a columnar polling table built by
`build_data_dict` from raw text lines, and three query functions
(`highest_polling_candidate`, `likely_voter_polling_average`,
`polling_history_change`).  Python floats are modelled as exact rationals,
Python exceptions as an explicit error type.
-/

deriving instance DecidableEq for Except

/-- Split a character list at every character satisfying `p`, keeping
empty segments, as Python `str.split(sep)` does between separators. -/
def splitPredL (p : Char → Bool) : List Char → List (List Char)
  | [] => [[]]
  | a :: as =>
    match splitPredL p as with
    | [] => [[]]
    | g :: gs => if p a then [] :: g :: gs else (a :: g) :: gs

/-- Leading and trailing whitespace removed from a character list. -/
def trimL (l : List Char) : List Char :=
  ((l.dropWhile Char.isWhitespace).reverse.dropWhile Char.isWhitespace).reverse

/-- Python `s.strip()`. -/
def pyStrip (s : String) : String :=
  String.mk (trimL s.data)

/-- Python `s.lower()` restricted to ASCII, as needed for float parsing. -/
def pyLower (s : String) : String :=
  String.mk (s.data.map Char.toLower)

/-- Python `s.split(c)` for a one-character separator: empty pieces are
kept (so `"a,,b"` gives three pieces). -/
def pySplitChar (c : Char) (s : String) : List String :=
  (splitPredL (fun a => a == c) s.data).map String.mk

/-- Errors the Python runtime can raise in this program (`IndexError`,
`ValueError`, `ZeroDivisionError`), together with the error classes the
design document recommends (`ParseError`, `EmptyDataError`,
`InsufficientDataError`).  The source never defines nor raises the last
three; they are included only so that claims mentioning them can be
stated. -/
inductive PyError where
  | indexError
  | valueError
  | zeroDivisionError
  | parseError
  | emptyDataError
  | insufficientDataError
deriving DecidableEq

/-- One parsed data row: the values appended to the six columns for a
single non-blank CSV line. -/
structure Row where
  month : String
  date : Int
  sample_size : Int
  sample_type : String
  harris : Rat
  trump : Rat
deriving DecidableEq

/-- The columnar store `self.data_dict`: keys 'month', 'date', 'sample',
'sample type', 'Harris result', 'Trump result'. -/
structure DataDict where
  month : List String
  date : List Int
  sample : List Int
  sample_type : List String
  harris_result : List Rat
  trump_result : List Rat
deriving DecidableEq

/-- The empty dictionary set up by `__init__` (six empty lists). -/
def initDataDict : DataDict :=
  { month := [], date := [], sample := [], sample_type := [],
    harris_result := [], trump_result := [] }

/-- Python list indexing `l[i]` for a nonnegative index: raises
`IndexError` when out of range. -/
def pyIdx {α : Type} (l : List α) (i : Nat) : Except PyError α :=
  match l.get? i with
  | some x => Except.ok x
  | none => Except.error PyError.indexError

/-- Python negative-one indexing `l[-1]`: the last element, `IndexError`
on an empty list. -/
def pyIdxLast {α : Type} (l : List α) : Except PyError α :=
  match l.getLast? with
  | some x => Except.ok x
  | none => Except.error PyError.indexError

/-- Value of a nonempty digit string, most significant digit first. -/
def digitsToNat (ds : List Char) : Nat :=
  ds.foldl (fun acc c => acc * 10 + (c.toNat - 48)) 0

/-- Python `int(s)`: surrounding whitespace stripped, optional sign, then
a nonempty run of decimal digits.  (Digit-group underscores, accepted by
CPython, are not modelled; no claim depends on them.) -/
def pyInt (s : String) : Option Int :=
  let t := pyStrip s
  let sd : Int × List Char :=
    match t.data with
    | '-' :: rest => (-1, rest)
    | '+' :: rest => (1, rest)
    | l => (1, l)
  if sd.2.all Char.isDigit && !sd.2.isEmpty then
    some (sd.1 * (digitsToNat sd.2 : Int))
  else
    none

/-- Mantissa part of a Python float literal: `digits`, `digits.digits`,
`digits.` or `.digits` (at least one digit overall). -/
def pyMantissa (m : String) : Option Rat :=
  match pySplitChar '.' m with
  | [i] =>
    if i.data.all Char.isDigit && !i.isEmpty then
      some ((digitsToNat i.data : Int) : Rat)
    else
      none
  | [i, f] =>
    if i.data.all Char.isDigit && f.data.all Char.isDigit &&
        !(i.isEmpty && f.isEmpty) then
      some (((digitsToNat (i.data ++ f.data) : Int) : Rat) / ((10 : Rat) ^ f.length))
    else
      none
  | _ => none

/-- Exponent part of a Python float literal: optional sign then a
nonempty run of digits. -/
def pyExpPart (s : String) : Option Int :=
  let sd : Int × List Char :=
    match s.data with
    | '-' :: rest => (-1, rest)
    | '+' :: rest => (1, rest)
    | l => (1, l)
  if sd.2.all Char.isDigit && !sd.2.isEmpty then
    some (sd.1 * (digitsToNat sd.2 : Int))
  else
    none

/-- Python `float(s)` on finite decimal literals: strip, optional sign,
mantissa, optional `e`/`E` exponent, valued as an exact rational.
(`inf`/`nan` literals have no rational value and are not modelled.) -/
def pyFloat (s : String) : Option Rat :=
  let t := pyLower (pyStrip s)
  let sb : Rat × String :=
    match t.data with
    | '-' :: rest => (-1, String.mk rest)
    | '+' :: rest => (1, String.mk rest)
    | _ => (1, t)
  match pySplitChar 'e' sb.2 with
  | [m] => (pyMantissa m).map (fun q => sb.1 * q)
  | [m, ex] =>
    match pyMantissa m, pyExpPart ex with
    | some q, some e => some (sb.1 * q * (10 : Rat) ^ e)
    | _, _ => none
  | _ => none

/-- `int(s)` as an expression statement: `ValueError` on failure. -/
def pyToInt (s : String) : Except PyError Int :=
  match pyInt s with
  | some v => Except.ok v
  | none => Except.error PyError.valueError

/-- `float(s)` as an expression statement: `ValueError` on failure. -/
def pyToFloat (s : String) : Except PyError Rat :=
  match pyFloat s with
  | some v => Except.ok v
  | none => Except.error PyError.valueError

/-- Python `s.split()` with no argument: split on runs of whitespace,
discarding empty pieces. -/
def pySplitWs (s : String) : List String :=
  ((splitPredL Char.isWhitespace s.data).filter (fun g => g ≠ [])).map String.mk

/-- Body of the per-line work in `build_data_dict` (lines 58-70 of the
source): split the stripped line on commas, trim each part, then parse
`month`, `date`, the composite sample field, and the two results, in
source order, raising `IndexError` for a missing part and `ValueError`
for a failed numeric conversion. -/
def parseLineE (line : String) : Except PyError Row := do
  let parts := (pySplitChar ',' line).map pyStrip
  let month ← pyIdx parts 0
  let dateStr ← pyIdx parts 1
  let date ← pyToInt dateStr
  let sample_field ← pyIdx parts 2
  let sample_bits := pySplitWs sample_field
  let sizeStr ← pyIdx sample_bits 0
  let size ← pyToInt sizeStr
  let stype ← pyIdxLast sample_bits
  let harrisStr ← pyIdx parts 3
  let harris ← pyToFloat harrisStr
  let trumpStr ← pyIdx parts 4
  let trump ← pyToFloat trumpStr
  pure { month := month, date := date, sample_size := size,
         sample_type := stype, harris := harris, trump := trump }

/-- The six `append` calls of one loop iteration (lines 72-77): they run
only after every parse of the line has succeeded. -/
def DataDict.appendRow (d : DataDict) (r : Row) : DataDict :=
  { month := d.month ++ [r.month],
    date := d.date ++ [r.date],
    sample := d.sample ++ [r.sample_size],
    sample_type := d.sample_type ++ [r.sample_type],
    harris_result := d.harris_result ++ [r.harris],
    trump_result := d.trump_result ++ [r.trump] }

/-- The loop of `build_data_dict` over the data lines: strip each line,
skip blanks, parse and append; a raised exception stops the loop and
leaves the dictionary in its current (possibly partially populated)
state, which is returned together with the exception. -/
def buildLines : List String → DataDict → DataDict × Option PyError
  | [], d => (d, none)
  | l :: ls, d =>
    let s := pyStrip l
    if s = "" then
      buildLines ls d
    else
      match parseLineE s with
      | Except.error e => (d, some e)
      | Except.ok r => buildLines ls (d.appendRow r)

/-- `build_data_dict`: skip the header row (`self.raw_data[1:]`), then
run the loop, starting from the current dictionary state. -/
def build_data_dict (raw : List String) (d : DataDict) : DataDict × Option PyError :=
  buildLines (raw.drop 1) d

/-- Python `max(l)` over a list of floats: `ValueError` on an empty
sequence, otherwise a left fold of binary `max`. -/
def pyMax (l : List Rat) : Except PyError Rat :=
  match l with
  | [] => Except.error PyError.valueError
  | x :: xs => Except.ok (xs.foldl max x)

/-- Nearest integer with ties to even, as Python uses when formatting a
value to a fixed number of decimals. -/
def rndHalfEven (q : Rat) : Int :=
  let f : Int := Int.fdiv q.num q.den
  let frac : Rat := q - (f : Rat)
  if frac < 1 / 2 then f
  else if 1 / 2 < frac then f + 1
  else if f % 2 = 0 then f else f + 1

/-- The Python format spec `.1f` applied to an exact rational: fixed
point, exactly one digit after the decimal point, round half to even. -/
def fmtFixed1 (q : Rat) : String :=
  let r := rndHalfEven (q * 10)
  let sgn : String := if r < 0 ∨ (r = 0 ∧ q < 0) then "-" else ""
  sgn ++ toString (r.natAbs / 10) ++ "." ++ toString (r.natAbs % 10)

/-- `highest_polling_candidate` (lines 80-93): take the two column maxima
independently and format the winner, or `EVEN` on a tie. -/
def highest_polling_candidate (d : DataDict) : Except PyError String := do
  let h_max ← pyMax d.harris_result
  let t_max ← pyMax d.trump_result
  if h_max > t_max then
    pure ("Harris " ++ fmtFixed1 (h_max * 100) ++ "%")
  else if t_max > h_max then
    pure ("Trump " ++ fmtFixed1 (t_max * 100) ++ "%")
  else
    pure ("EVEN " ++ fmtFixed1 (h_max * 100) ++ "%")

/-- Effectful `List.mapM` over `Except`, left to right: models a Python
list comprehension whose element expression can raise. -/
def mapME {α β : Type} (f : α → Except PyError β) : List α → Except PyError (List β)
  | [] => Except.ok []
  | a :: as => do
    let b ← f a
    let bs ← mapME f as
    pure (b :: bs)

/-- `likely_voter_polling_average` (lines 97-107): indices whose sample
type is exactly `LV`, the two results gathered at those indices, and the
two means with an explicit `0.0` fallback for no matches. -/
def likely_voter_polling_average (d : DataDict) : Except PyError (Rat × Rat) := do
  let lv_idx := ((d.sample_type.enum.filter (fun p => p.2 = "LV")).map (fun p => p.1))
  let h_vals ← mapME (pyIdx d.harris_result) lv_idx
  let t_vals ← mapME (pyIdx d.trump_result) lv_idx
  let h_avg : Rat := if h_vals ≠ [] then h_vals.sum / (h_vals.length : Rat) else 0
  let t_avg : Rat := if t_vals ≠ [] then t_vals.sum / (t_vals.length : Rat) else 0
  pure (h_avg, t_avg)

/-- Python slice `l[a:b]` for `0 ≤ a ≤ b ≤ len(l)` as it occurs in
`polling_history_change`. -/
def pySlice {α : Type} (l : List α) (a b : Nat) : List α :=
  (l.drop a).take (b - a)

/-- Python float division `x / len`: `ZeroDivisionError` when the length
is zero. -/
def pyDiv (a : Rat) (b : Nat) : Except PyError Rat :=
  if b = 0 then Except.error PyError.zeroDivisionError
  else Except.ok (a / (b : Rat))

/-- `polling_history_change` (lines 110-132): slice bounds from the
Harris column length, then the four means in source order, each a
`sum(...) / len(...)` that can raise `ZeroDivisionError`. -/
def polling_history_change (d : DataDict) : Except PyError (Rat × Rat) := do
  let h := d.harris_result
  let t := d.trump_result
  let n := h.length
  let bounds : Nat × Nat × Nat × Nat :=
    if n ≥ 60 then (0, 30, n - 30, n)
    else
      let mid := n / 2
      (0, mid, n - mid, n)
  let h_latest ← pyDiv (pySlice h bounds.1 bounds.2.1).sum (pySlice h bounds.1 bounds.2.1).length
  let t_latest ← pyDiv (pySlice t bounds.1 bounds.2.1).sum (pySlice t bounds.1 bounds.2.1).length
  let h_earliest ← pyDiv (pySlice h bounds.2.2.1 bounds.2.2.2).sum (pySlice h bounds.2.2.1 bounds.2.2.2).length
  let t_earliest ← pyDiv (pySlice t bounds.2.2.1 bounds.2.2.2).sum (pySlice t bounds.2.2.1 bounds.2.2.2).length
  pure (h_latest - h_earliest, t_latest - t_earliest)

/-- Mean of a list of rationals. -/
def listMean (l : List Rat) : Rat :=
  l.sum / (l.length : Rat)

/-- Mean with the explicit `0.0` fallback used by
`likely_voter_polling_average` when no row matches. -/
def meanOrZero (l : List Rat) : Rat :=
  if l = [] then 0 else listMean l

/-- Latest window as the spec words it: the first 30 rows when
`n ≥ 60`, else the first `n // 2` rows. -/
def specLatestWindow (n : Nat) (l : List Rat) : List Rat :=
  if 60 ≤ n then l.take 30 else l.take (n / 2)

/-- Earliest window as the spec words it: the last 30 rows when
`n ≥ 60`, else the last `n // 2` rows. -/
def specEarliestWindow (n : Nat) (l : List Rat) : List Rat :=
  if 60 ≤ n then l.drop (n - 30) else l.drop (n - n / 2)

/-- Likely-voter selection as the spec words it: the values whose
aligned sample type is exactly the string `LV`. -/
def lvSelect (types : List String) (vals : List Rat) : List Rat :=
  ((types.zip vals).filter (fun p => p.1 = "LV")).map (fun p => p.2)

/-- Indices of `LV` entries starting from offset `k`: a recursive
rendering of the `enumerate` comprehension, used to reason about it. -/
def selIdxAux : List String → Nat → List Nat
  | [], _ => []
  | s :: ss, k => if s = "LV" then k :: selIdxAux ss (k + 1) else selIdxAux ss (k + 1)

/-- The rows of a table, index-aligned across all six columns. -/
def tableRows (d : DataDict) : List (String × Int × Int × String × Rat × Rat) :=
  d.month.zip (d.date.zip (d.sample.zip (d.sample_type.zip (d.harris_result.zip d.trump_result))))

/-- The three queries of the program. -/
inductive Query where
  | highest
  | lvAverage
  | history
deriving DecidableEq

/-- A query result: a formatted string or a pair of rationals. -/
inductive QueryOut where
  | text (s : String)
  | pair (p : Rat × Rat)
deriving DecidableEq

/-- State-passing wrapper for one query call.  Each source method only
reads `self.data_dict` — no statement assigns to it or calls a mutating
method on it — so the table component is returned unchanged. -/
def runQuery : Query → DataDict → Except PyError QueryOut × DataDict
  | Query.highest, d => ((highest_polling_candidate d).map QueryOut.text, d)
  | Query.lvAverage, d => ((likely_voter_polling_average d).map QueryOut.pair, d)
  | Query.history, d => ((polling_history_change d).map QueryOut.pair, d)

/-- The table state after an arbitrary sequence of queries. -/
def runQueries : List Query → DataDict → DataDict
  | [], d => d
  | q :: qs, d => runQueries qs (runQuery q d).2

/-- The data lines of a raw input: header discarded, each line stripped,
blank lines dropped — exactly the lines the loader parses. -/
def dataLines (raw : List String) : List String :=
  ((raw.drop 1).map pyStrip).filter (fun s => s ≠ "")

/-- Append a list of parsed rows in order. -/
def appendRows (d : DataDict) (rows : List Row) : DataDict :=
  rows.foldl DataDict.appendRow d

/-- Whether an `Except` value is a success, as a `Bool`. -/
def exOk {α : Type} : Except PyError α → Bool
  | Except.ok _ => true
  | Except.error _ => false

/-- All six columns have equal length. -/
def WF (d : DataDict) : Prop :=
  d.date.length = d.month.length ∧ d.sample.length = d.month.length ∧
  d.sample_type.length = d.month.length ∧ d.harris_result.length = d.month.length ∧
  d.trump_result.length = d.month.length

/-- Concrete two-row table used as a witness input. -/
def wTwo : DataDict :=
  ⟨["a", "b"], [1, 2], [2, 3], ["LV", "A"], [1/2, 1/4], [1/3, 1/5]⟩

/-- `wTwo` with its rows swapped (the same index permutation applied to
all six columns). -/
def wTwoRev : DataDict :=
  ⟨["b", "a"], [2, 1], [3, 2], ["A", "LV"], [1/4, 1/2], [1/5, 1/3]⟩

/-- Concrete one-row table used as a witness input. -/
def wOne : DataDict :=
  ⟨["a"], [1], [2], ["LV"], [57/100], [46/100]⟩

/-- Concrete three-row table with constant columns. -/
def wConst : DataDict :=
  ⟨["a", "b", "c"], [1, 2, 3], [2, 2, 2], ["LV", "A", "RV"], [1/2, 1/2, 1/2], [1/3, 1/3, 1/3]⟩

theorem ok_bind {α β : Type} (a : α) (f : α → Except PyError β) :
    (Except.ok a >>= f) = f a := rfl

theorem error_bind {α β : Type} (e : PyError) (f : α → Except PyError β) :
    ((Except.error e : Except PyError α) >>= f) = Except.error e := rfl

theorem pyDiv_ok (a : Rat) (b : Nat) (h : b ≠ 0) :
    pyDiv a b = Except.ok (a / (b : Rat)) := by
  simp [pyDiv, h]

/-- C8: every interleaving of the three queries after a load leaves the
table state (all six column sequences) exactly as it was: the queries
are pure reads. -/
theorem queries_pure (qs : List Query) (d : DataDict) : runQueries qs d = d := by
  induction qs generalizing d with
  | nil => rfl
  | cons q rest ih => cases q <;> simp [runQueries, runQuery, ih]

/-- C3 counterexample: on a one-row table `polling_history_change` raises
the raw arithmetic fault `ZeroDivisionError`, not the explicit
`InsufficientDataError` the claim asserts. -/
theorem history_one_row_raw_fault :
    polling_history_change ⟨["a"], [1], [2], ["LV"], [1/2], [1/3]⟩ =
      Except.error PyError.zeroDivisionError ∧
    PyError.zeroDivisionError ≠ PyError.insufficientDataError := by
  with_unfolding_all decide

/-- C3 amended: for every table with at most one row (`mid = 0`),
`polling_history_change` fails at query time with the raw
division-by-zero fault `ZeroDivisionError` (the code raises no explicit
`InsufficientDataError`). -/
theorem history_short_zero_div (d : DataDict) (h : d.harris_result.length ≤ 1) :
    polling_history_change d = Except.error PyError.zeroDivisionError := by
  have h60 : ¬ (d.harris_result.length ≥ 60) := by omega
  have hmid : d.harris_result.length / 2 = 0 := by omega
  simp [polling_history_change, h60, hmid, pySlice, pyDiv, error_bind]

/-- C3 amended, witnessed at a concrete one-row table. -/
theorem history_short_zero_div_w :
    (⟨["a"], [1], [2], ["LV"], [1/2], [1/3]⟩ : DataDict).harris_result.length ≤ 1 ∧
    polling_history_change ⟨["a"], [1], [2], ["LV"], [1/2], [1/3]⟩ =
      Except.error PyError.zeroDivisionError :=
  ⟨by decide, history_short_zero_div ⟨["a"], [1], [2], ["LV"], [1/2], [1/3]⟩ (by decide)⟩

/-- C6 counterexample: on the empty table `highest_polling_candidate`
raises `ValueError` (from `max` on an empty sequence), not the explicit
`EmptyDataError` the claim asserts. -/
theorem highest_empty_not_explicit :
    highest_polling_candidate initDataDict = Except.error PyError.valueError ∧
    PyError.valueError ≠ PyError.emptyDataError := by
  with_unfolding_all decide

/-- C6 amended: on any table whose Harris column is empty — in
particular the empty table — `highest_polling_candidate` fails at query
time with `ValueError`, the error `max` raises on an empty sequence; no
explicit `EmptyDataError` exists in the code. -/
theorem highest_empty_value_error (d : DataDict) (h : d.harris_result = []) :
    highest_polling_candidate d = Except.error PyError.valueError := by
  simp [highest_polling_candidate, h, pyMax, error_bind]

/-- C6 amended, witnessed at the empty table. -/
theorem highest_empty_value_error_w :
    initDataDict.harris_result = [] ∧
    highest_polling_candidate initDataDict = Except.error PyError.valueError :=
  ⟨rfl, highest_empty_value_error initDataDict rfl⟩

theorem pure_eq_ok {α : Type} (a : α) : (pure a : Except PyError α) = Except.ok a := rfl

theorem pySlice_zero {α : Type} (l : List α) (b : Nat) : pySlice l 0 b = l.take b := by
  simp [pySlice]

theorem pySlice_to_end {α : Type} (l : List α) (a : Nat) :
    pySlice l a l.length = l.drop a := by
  unfold pySlice
  exact List.take_of_length_le (by simp)

theorem specLatest_len (l : List Rat) (n : Nat) (hl : l.length = n) :
    (specLatestWindow n l).length = if 60 ≤ n then 30 else n / 2 := by
  by_cases hc : 60 ≤ n <;> simp [specLatestWindow, hc, List.length_take] <;> omega

theorem specEarliest_len (l : List Rat) (n : Nat) (hl : l.length = n) :
    (specEarliestWindow n l).length = if 60 ≤ n then 30 else n / 2 := by
  by_cases hc : 60 ≤ n <;> simp [specEarliestWindow, hc, List.length_drop] <;> omega

theorem history_change_eq (d : DataDict)
    (hlen : d.trump_result.length = d.harris_result.length)
    (h2 : 2 ≤ d.harris_result.length) :
    polling_history_change d =
      Except.ok
        (listMean (specLatestWindow d.harris_result.length d.harris_result) -
           listMean (specEarliestWindow d.harris_result.length d.harris_result),
         listMean (specLatestWindow d.harris_result.length d.trump_result) -
           listMean (specEarliestWindow d.harris_result.length d.trump_result)) := by
  by_cases hc : 60 ≤ d.harris_result.length
  · have e1 : d.harris_result.length - (d.harris_result.length - 30) = 30 := by omega
    have sh : pySlice d.harris_result (d.harris_result.length - 30) d.harris_result.length =
        d.harris_result.drop (d.harris_result.length - 30) :=
      pySlice_to_end _ _
    have st : pySlice d.trump_result (d.harris_result.length - 30) d.harris_result.length =
        d.trump_result.drop (d.harris_result.length - 30) := by
      unfold pySlice
      rw [e1]
      exact List.take_of_length_le (by rw [List.length_drop]; omega)
    have n1 : (d.harris_result.take 30).length ≠ 0 := by rw [List.length_take]; omega
    have n2 : (d.trump_result.take 30).length ≠ 0 := by rw [List.length_take]; omega
    have n3 : (d.harris_result.drop (d.harris_result.length - 30)).length ≠ 0 := by
      rw [List.length_drop]; omega
    have n4 : (d.trump_result.drop (d.harris_result.length - 30)).length ≠ 0 := by
      rw [List.length_drop]; omega
    simp only [polling_history_change, ge_iff_le, hc, if_true, pySlice_zero, sh, st]
    rw [pyDiv_ok _ _ n1, ok_bind, pyDiv_ok _ _ n2, ok_bind, pyDiv_ok _ _ n3, ok_bind,
      pyDiv_ok _ _ n4, ok_bind, pure_eq_ok]
    simp [specLatestWindow, specEarliestWindow, listMean, hc]
  · have e1 : d.harris_result.length - (d.harris_result.length - d.harris_result.length / 2) =
        d.harris_result.length / 2 := by omega
    have sh : pySlice d.harris_result
        (d.harris_result.length - d.harris_result.length / 2) d.harris_result.length =
        d.harris_result.drop (d.harris_result.length - d.harris_result.length / 2) :=
      pySlice_to_end _ _
    have st : pySlice d.trump_result
        (d.harris_result.length - d.harris_result.length / 2) d.harris_result.length =
        d.trump_result.drop (d.harris_result.length - d.harris_result.length / 2) := by
      unfold pySlice
      rw [e1]
      exact List.take_of_length_le (by rw [List.length_drop]; omega)
    have n1 : (d.harris_result.take (d.harris_result.length / 2)).length ≠ 0 := by
      rw [List.length_take]; omega
    have n2 : (d.trump_result.take (d.harris_result.length / 2)).length ≠ 0 := by
      rw [List.length_take]; omega
    have n3 : (d.harris_result.drop
        (d.harris_result.length - d.harris_result.length / 2)).length ≠ 0 := by
      rw [List.length_drop]; omega
    have n4 : (d.trump_result.drop
        (d.harris_result.length - d.harris_result.length / 2)).length ≠ 0 := by
      rw [List.length_drop]; omega
    simp only [polling_history_change, ge_iff_le, hc, if_false, pySlice_zero, sh, st]
    rw [pyDiv_ok _ _ n1, ok_bind, pyDiv_ok _ _ n2, ok_bind, pyDiv_ok _ _ n3, ok_bind,
      pyDiv_ok _ _ n4, ok_bind, pure_eq_ok]
    simp [specLatestWindow, specEarliestWindow, listMean, hc]

/-- C1: for a loaded table with at least two rows, `polling_history_change`
returns the pair of differences of window means, where the latest window
is the first 30 rows and the earliest the last 30 rows when `n ≥ 60`, and
the first and last `n // 2` rows otherwise; both windows have size 30 when
`n ≥ 60` (so exactly 30 at `n = 60`) and size `n // 2` otherwise (so 29 at
`n = 59`). -/
theorem history_change_windows_claim (d : DataDict)
    (hlen : d.trump_result.length = d.harris_result.length)
    (h2 : 2 ≤ d.harris_result.length) :
    polling_history_change d =
      Except.ok
        (listMean (specLatestWindow d.harris_result.length d.harris_result) -
           listMean (specEarliestWindow d.harris_result.length d.harris_result),
         listMean (specLatestWindow d.harris_result.length d.trump_result) -
           listMean (specEarliestWindow d.harris_result.length d.trump_result)) ∧
    (specLatestWindow d.harris_result.length d.harris_result).length =
      (if 60 ≤ d.harris_result.length then 30 else d.harris_result.length / 2) ∧
    (specEarliestWindow d.harris_result.length d.harris_result).length =
      (if 60 ≤ d.harris_result.length then 30 else d.harris_result.length / 2) ∧
    (specLatestWindow d.harris_result.length d.trump_result).length =
      (if 60 ≤ d.harris_result.length then 30 else d.harris_result.length / 2) ∧
    (specEarliestWindow d.harris_result.length d.trump_result).length =
      (if 60 ≤ d.harris_result.length then 30 else d.harris_result.length / 2) :=
  ⟨history_change_eq d hlen h2,
   specLatest_len _ _ rfl, specEarliest_len _ _ rfl,
   specLatest_len _ _ hlen, specEarliest_len _ _ hlen⟩

/-- C1, witnessed at the concrete two-row table `wTwo`. -/
theorem history_change_windows_claim_w :
    wTwo.trump_result.length = wTwo.harris_result.length ∧
    2 ≤ wTwo.harris_result.length ∧
    (polling_history_change wTwo =
      Except.ok
        (listMean (specLatestWindow wTwo.harris_result.length wTwo.harris_result) -
           listMean (specEarliestWindow wTwo.harris_result.length wTwo.harris_result),
         listMean (specLatestWindow wTwo.harris_result.length wTwo.trump_result) -
           listMean (specEarliestWindow wTwo.harris_result.length wTwo.trump_result)) ∧
     (specLatestWindow wTwo.harris_result.length wTwo.harris_result).length =
       (if 60 ≤ wTwo.harris_result.length then 30 else wTwo.harris_result.length / 2) ∧
     (specEarliestWindow wTwo.harris_result.length wTwo.harris_result).length =
       (if 60 ≤ wTwo.harris_result.length then 30 else wTwo.harris_result.length / 2) ∧
     (specLatestWindow wTwo.harris_result.length wTwo.trump_result).length =
       (if 60 ≤ wTwo.harris_result.length then 30 else wTwo.harris_result.length / 2) ∧
     (specEarliestWindow wTwo.harris_result.length wTwo.trump_result).length =
       (if 60 ≤ wTwo.harris_result.length then 30 else wTwo.harris_result.length / 2)) :=
  ⟨rfl, by decide, history_change_windows_claim wTwo rfl (by decide)⟩

theorem sum_of_const (l : List Rat) (c : Rat) (h : ∀ x ∈ l, x = c) :
    l.sum = (l.length : Rat) * c := by
  induction l with
  | nil => simp
  | cons a t ih =>
    have ha := h a (List.mem_cons_self a t)
    have ht := ih (fun x hx => h x (List.mem_cons_of_mem a hx))
    rw [List.sum_cons, ha, ht, List.length_cons]
    push_cast
    ring

theorem listMean_const (l : List Rat) (c : Rat) (hne : l.length ≠ 0)
    (h : ∀ x ∈ l, x = c) : listMean l = c := by
  have hcast : ((l.length : Rat)) ≠ 0 := Nat.cast_ne_zero.mpr hne
  rw [listMean, sum_of_const l c h, mul_comm, mul_div_assoc, div_self hcast, mul_one]

theorem mem_of_specLatest (n : Nat) (l : List Rat) (x : Rat)
    (h : x ∈ specLatestWindow n l) : x ∈ l := by
  unfold specLatestWindow at h
  split at h <;> exact List.mem_of_mem_take h

theorem mem_of_specEarliest (n : Nat) (l : List Rat) (x : Rat)
    (h : x ∈ specEarliestWindow n l) : x ∈ l := by
  unfold specEarliestWindow at h
  split at h <;> exact List.mem_of_mem_drop h

/-- C9: on a table with at least two rows whose Harris column is the
constant `ch` and whose Trump column is the constant `ct`,
`polling_history_change` returns exactly `(0, 0)`: both windows have
equal means over constant data. -/
theorem history_constant_claim (d : DataDict) (ch ct : Rat)
    (hlen : d.trump_result.length = d.harris_result.length)
    (h2 : 2 ≤ d.harris_result.length)
    (hh : ∀ x ∈ d.harris_result, x = ch)
    (ht : ∀ x ∈ d.trump_result, x = ct) :
    polling_history_change d = Except.ok (0, 0) := by
  have L1 : (specLatestWindow d.harris_result.length d.harris_result).length ≠ 0 := by
    rw [specLatest_len _ _ rfl]; split <;> omega
  have L2 : (specEarliestWindow d.harris_result.length d.harris_result).length ≠ 0 := by
    rw [specEarliest_len _ _ rfl]; split <;> omega
  have L3 : (specLatestWindow d.harris_result.length d.trump_result).length ≠ 0 := by
    rw [specLatest_len _ _ hlen]; split <;> omega
  have L4 : (specEarliestWindow d.harris_result.length d.trump_result).length ≠ 0 := by
    rw [specEarliest_len _ _ hlen]; split <;> omega
  rw [history_change_eq d hlen h2,
    listMean_const _ ch L1 (fun x hx => hh x (mem_of_specLatest _ _ _ hx)),
    listMean_const _ ch L2 (fun x hx => hh x (mem_of_specEarliest _ _ _ hx)),
    listMean_const _ ct L3 (fun x hx => ht x (mem_of_specLatest _ _ _ hx)),
    listMean_const _ ct L4 (fun x hx => ht x (mem_of_specEarliest _ _ _ hx)),
    sub_self, sub_self]

/-- C9, witnessed at the constant three-row table `wConst`. -/
theorem history_constant_claim_w :
    wConst.trump_result.length = wConst.harris_result.length ∧
    2 ≤ wConst.harris_result.length ∧
    (∀ x ∈ wConst.harris_result, x = 1/2) ∧
    (∀ x ∈ wConst.trump_result, x = 1/3) ∧
    polling_history_change wConst = Except.ok (0, 0) :=
  ⟨rfl, by decide, by with_unfolding_all decide, by with_unfolding_all decide,
   history_constant_claim wConst (1/2) (1/3) rfl (by decide)
     (by with_unfolding_all decide) (by with_unfolding_all decide)⟩

theorem foldl_max_mem (x : Rat) (xs : List Rat) : xs.foldl max x ∈ x :: xs := by
  induction xs generalizing x with
  | nil => simp
  | cons a l ih =>
    rw [List.foldl_cons]
    rcases List.mem_cons.mp (ih (max x a)) with h | h
    · rcases max_choice x a with e | e
      · rw [h, e]; exact List.mem_cons_self _ _
      · rw [h, e]; exact List.mem_cons.mpr (Or.inr (List.mem_cons_self _ _))
    · exact List.mem_cons.mpr (Or.inr (List.mem_cons.mpr (Or.inr h)))

theorem le_foldl_max (x : Rat) (xs : List Rat) : ∀ y ∈ x :: xs, y ≤ xs.foldl max x := by
  induction xs generalizing x with
  | nil =>
    intro y hy
    rw [List.mem_singleton] at hy
    simp [hy]
  | cons a l ih =>
    intro y hy
    rw [List.foldl_cons]
    rcases List.mem_cons.mp hy with h | h
    · subst h
      exact le_trans (le_max_left y a) (ih (max y a) _ (List.mem_cons_self _ _))
    · rcases List.mem_cons.mp h with h2 | h2
      · subst h2
        exact le_trans (le_max_right x y) (ih (max x y) _ (List.mem_cons_self _ _))
      · exact ih (max x a) y (List.mem_cons.mpr (Or.inr h2))

theorem pyMax_spec (l : List Rat) (h : l ≠ []) :
    ∃ m, pyMax l = Except.ok m ∧ m ∈ l ∧ ∀ y ∈ l, y ≤ m := by
  cases l with
  | nil => exact absurd rfl h
  | cons x xs => exact ⟨xs.foldl max x, rfl, foldl_max_mem x xs, le_foldl_max x xs⟩

/-- C4: on a table with nonempty result columns, `highest_polling_candidate`
computes the Harris maximum and the Trump maximum independently (each a
member of its own column that dominates it, possibly from different rows)
and returns `"Harris <pct>%"`, `"Trump <pct>%"`, or `"EVEN <pct>%"`,
where `<pct>` is the winning maximum times 100 formatted to exactly one
decimal place. -/
theorem highest_polling_claim (d : DataDict)
    (hh : d.harris_result ≠ []) (ht : d.trump_result ≠ []) :
    ∃ hm tm, hm ∈ d.harris_result ∧ (∀ y ∈ d.harris_result, y ≤ hm) ∧
      tm ∈ d.trump_result ∧ (∀ y ∈ d.trump_result, y ≤ tm) ∧
      highest_polling_candidate d =
        Except.ok
          (if hm > tm then "Harris " ++ fmtFixed1 (hm * 100) ++ "%"
           else if tm > hm then "Trump " ++ fmtFixed1 (tm * 100) ++ "%"
           else "EVEN " ++ fmtFixed1 (hm * 100) ++ "%") := by
  obtain ⟨hm, e1, m1, g1⟩ := pyMax_spec _ hh
  obtain ⟨tm, e2, m2, g2⟩ := pyMax_spec _ ht
  refine ⟨hm, tm, m1, g1, m2, g2, ?_⟩
  simp only [highest_polling_candidate, e1, ok_bind, e2]
  by_cases c1 : hm > tm <;> by_cases c2 : tm > hm <;> simp [c1, c2, pure_eq_ok]

/-- C4, witnessed at the concrete one-row table `wOne`. -/
theorem highest_polling_claim_w :
    wOne.harris_result ≠ [] ∧ wOne.trump_result ≠ [] ∧
    (∃ hm tm, hm ∈ wOne.harris_result ∧ (∀ y ∈ wOne.harris_result, y ≤ hm) ∧
      tm ∈ wOne.trump_result ∧ (∀ y ∈ wOne.trump_result, y ≤ tm) ∧
      highest_polling_candidate wOne =
        Except.ok
          (if hm > tm then "Harris " ++ fmtFixed1 (hm * 100) ++ "%"
           else if tm > hm then "Trump " ++ fmtFixed1 (tm * 100) ++ "%"
           else "EVEN " ++ fmtFixed1 (hm * 100) ++ "%")) :=
  ⟨by decide, by decide, highest_polling_claim wOne (by decide) (by decide)⟩
theorem pyIdx_succ (v : Rat) (vs : List Rat) (i : Nat) : pyIdx (v :: vs) (i + 1) = pyIdx vs i := rfl

theorem mapME_map_succ (idxs : List Nat) (v : Rat) (vs : List Rat) :
    mapME (pyIdx (v :: vs)) (idxs.map (fun i => i + 1)) = mapME (pyIdx vs) idxs := by
  induction idxs with
  | nil => rfl
  | cons i is ih => simp [mapME, pyIdx_succ, ih]

theorem selIdxAux_shift (ss : List String) (k : Nat) :
    selIdxAux ss (k + 1) = (selIdxAux ss k).map (fun i => i + 1) := by
  induction ss generalizing k with
  | nil => rfl
  | cons s t ih => by_cases h : s = "LV" <;> simp [selIdxAux, h, ih]

theorem enumFrom_sel (types : List String) (k : Nat) :
    (((List.enumFrom k types).filter (fun p => p.2 = "LV")).map (fun p => p.1)) =
      selIdxAux types k := by
  induction types generalizing k with
  | nil => rfl
  | cons s t ih => by_cases h : s = "LV" <;> simp [List.enumFrom, List.filter_cons, selIdxAux, h, ih]

theorem enum_sel (types : List String) :
    ((types.enum.filter (fun p => p.2 = "LV")).map (fun p => p.1)) = selIdxAux types 0 :=
  enumFrom_sel types 0

theorem mapME_selIdx (types : List String) (vals : List Rat) (h : types.length ≤ vals.length) :
    mapME (pyIdx vals) (selIdxAux types 0) = Except.ok (lvSelect types vals) := by
  induction types generalizing vals with
  | nil => simp [selIdxAux, mapME, lvSelect]
  | cons s t ih =>
    cases vals with
    | nil => simp at h
    | cons v vs =>
      have hlen : t.length ≤ vs.length := by simp at h; omega
      by_cases hs : s = "LV"
      · simp [selIdxAux, hs, selIdxAux_shift, mapME, pyIdx, mapME_map_succ, ih vs hlen,
          lvSelect, List.filter_cons, ok_bind, pure_eq_ok]
      · simp [selIdxAux, hs, selIdxAux_shift, mapME_map_succ, ih vs hlen,
          lvSelect, List.filter_cons]

theorem sum_nonneg_of (l : List Rat) (h : ∀ x ∈ l, 0 ≤ x) : 0 ≤ l.sum := by
  induction l with
  | nil => simp
  | cons a t ih =>
    rw [List.sum_cons]
    have h1 := h a (List.mem_cons_self a t)
    have h2 := ih (fun x hx => h x (List.mem_cons_of_mem a hx))
    linarith

theorem sum_le_len (l : List Rat) (h : ∀ x ∈ l, x ≤ 1) : l.sum ≤ (l.length : Rat) := by
  induction l with
  | nil => simp
  | cons a t ih =>
    rw [List.sum_cons, List.length_cons]
    have h1 := h a (List.mem_cons_self a t)
    have h2 := ih (fun x hx => h x (List.mem_cons_of_mem a hx))
    push_cast
    linarith

theorem meanOrZero_bounds (l : List Rat) (h : ∀ x ∈ l, 0 ≤ x ∧ x ≤ 1) :
    0 ≤ meanOrZero l ∧ meanOrZero l ≤ 1 := by
  by_cases hl : l = []
  · simp [meanOrZero, hl]
  · have hne : l.length ≠ 0 := by simpa [List.length_eq_zero] using hl
    have hlen : 0 < (l.length : Rat) := by
      exact_mod_cast Nat.pos_of_ne_zero hne
    rw [meanOrZero, if_neg hl, listMean]
    constructor
    · exact div_nonneg (sum_nonneg_of l (fun x hx => (h x hx).1)) (le_of_lt hlen)
    · rw [div_le_one hlen]
      exact sum_le_len l (fun x hx => (h x hx).2)

theorem mem_lvSelect (types : List String) (vals : List Rat) (x : Rat)
    (hx : x ∈ lvSelect types vals) : x ∈ vals := by
  unfold lvSelect at hx
  obtain ⟨p, hp, he⟩ := List.mem_map.mp hx
  rw [← he]
  exact (List.of_mem_zip (List.mem_of_mem_filter hp)).2

theorem lvSelect_nil (types : List String) (vals : List Rat)
    (h : ∀ s ∈ types, s ≠ "LV") : lvSelect types vals = [] := by
  unfold lvSelect
  rw [List.filter_eq_nil_iff.mpr, List.map_nil]
  intro p hp
  simpa using h p.1 (List.of_mem_zip hp).1

/-- C5: `likely_voter_polling_average` selects exactly the rows whose
sample type is the string `LV` (exact, case-sensitive), returns the
arithmetic means of the Harris and Trump results over those rows, returns
`(0.0, 0.0)` when no row matches (total, no error), and under the
precondition that all stored results lie in `[0,1]` both returned
averages lie in `[0,1]`. -/
theorem likely_voter_claim (d : DataDict)
    (h1 : d.sample_type.length ≤ d.harris_result.length)
    (h2 : d.sample_type.length ≤ d.trump_result.length) :
    likely_voter_polling_average d =
      Except.ok (meanOrZero (lvSelect d.sample_type d.harris_result),
                 meanOrZero (lvSelect d.sample_type d.trump_result)) ∧
    ((∀ s ∈ d.sample_type, s ≠ "LV") →
      likely_voter_polling_average d = Except.ok (0, 0)) ∧
    ((∀ x ∈ d.harris_result, 0 ≤ x ∧ x ≤ 1) →
      0 ≤ meanOrZero (lvSelect d.sample_type d.harris_result) ∧
      meanOrZero (lvSelect d.sample_type d.harris_result) ≤ 1) ∧
    ((∀ x ∈ d.trump_result, 0 ≤ x ∧ x ≤ 1) →
      0 ≤ meanOrZero (lvSelect d.sample_type d.trump_result) ∧
      meanOrZero (lvSelect d.sample_type d.trump_result) ≤ 1) := by
  have main : likely_voter_polling_average d =
      Except.ok (meanOrZero (lvSelect d.sample_type d.harris_result),
                 meanOrZero (lvSelect d.sample_type d.trump_result)) := by
    simp only [likely_voter_polling_average, enum_sel, mapME_selIdx _ _ h1,
      mapME_selIdx _ _ h2, ok_bind, pure_eq_ok]
    simp [meanOrZero, listMean, ne_eq, ite_not]
  refine ⟨main, ?_, ?_, ?_⟩
  · intro hs
    rw [main, lvSelect_nil _ _ hs, lvSelect_nil _ _ hs]
    simp [meanOrZero]
  · intro hb
    exact meanOrZero_bounds _ (fun x hx => hb x (mem_lvSelect _ _ _ hx))
  · intro hb
    exact meanOrZero_bounds _ (fun x hx => hb x (mem_lvSelect _ _ _ hx))

/-- C5, witnessed at the concrete two-row table `wTwo` (one `LV` row,
one non-`LV` row). -/
theorem likely_voter_claim_w :
    wTwo.sample_type.length ≤ wTwo.harris_result.length ∧
    wTwo.sample_type.length ≤ wTwo.trump_result.length ∧
    (likely_voter_polling_average wTwo =
      Except.ok (meanOrZero (lvSelect wTwo.sample_type wTwo.harris_result),
                 meanOrZero (lvSelect wTwo.sample_type wTwo.trump_result)) ∧
     ((∀ s ∈ wTwo.sample_type, s ≠ "LV") →
       likely_voter_polling_average wTwo = Except.ok (0, 0)) ∧
     ((∀ x ∈ wTwo.harris_result, 0 ≤ x ∧ x ≤ 1) →
       0 ≤ meanOrZero (lvSelect wTwo.sample_type wTwo.harris_result) ∧
       meanOrZero (lvSelect wTwo.sample_type wTwo.harris_result) ≤ 1) ∧
     ((∀ x ∈ wTwo.trump_result, 0 ≤ x ∧ x ≤ 1) →
       0 ≤ meanOrZero (lvSelect wTwo.sample_type wTwo.trump_result) ∧
       meanOrZero (lvSelect wTwo.sample_type wTwo.trump_result) ≤ 1)) :=
  ⟨by decide, by decide, likely_voter_claim wTwo (by decide) (by decide)⟩
theorem buildLines_ok (ls : List String) : ∀ d0 d : DataDict,
    buildLines ls d0 = (d, none) →
    ∃ rows, mapME parseLineE ((ls.map pyStrip).filter (fun s => s ≠ "")) = Except.ok rows ∧
      d = appendRows d0 rows := by
  induction ls with
  | nil =>
    intro d0 d h
    simp only [buildLines, Prod.mk.injEq] at h
    exact ⟨[], rfl, by simp [appendRows, h.1]⟩
  | cons l t ih =>
    intro d0 d h
    by_cases hb : pyStrip l = ""
    · obtain ⟨rows, hm, hd⟩ := ih d0 d (by simpa [buildLines, hb] using h)
      exact ⟨rows, by simpa [hb] using hm, hd⟩
    · cases hp : parseLineE (pyStrip l) with
      | error e => simp [buildLines, hb, hp] at h
      | ok r =>
        obtain ⟨rows, hm, hd⟩ := ih (d0.appendRow r) d (by simpa [buildLines, hb, hp] using h)
        refine ⟨r :: rows, ?_, ?_⟩
        · rw [List.map_cons, List.filter_cons, if_pos (by simp [hb])]
          simp only [mapME]
          rw [hp, ok_bind, hm, ok_bind, pure_eq_ok]
        · simpa [appendRows, List.foldl_cons] using hd

theorem appendRows_cols (rows : List Row) : ∀ d0 : DataDict,
    (appendRows d0 rows).month = d0.month ++ rows.map Row.month ∧
    (appendRows d0 rows).date = d0.date ++ rows.map Row.date ∧
    (appendRows d0 rows).sample = d0.sample ++ rows.map Row.sample_size ∧
    (appendRows d0 rows).sample_type = d0.sample_type ++ rows.map Row.sample_type ∧
    (appendRows d0 rows).harris_result = d0.harris_result ++ rows.map Row.harris ∧
    (appendRows d0 rows).trump_result = d0.trump_result ++ rows.map Row.trump := by
  induction rows with
  | nil => intro d0; simp [appendRows]
  | cons r t ih =>
    intro d0
    obtain ⟨m, dt, sp, st, hr, tr⟩ := ih (d0.appendRow r)
    have e : appendRows d0 (r :: t) = appendRows (d0.appendRow r) t := rfl
    refine ⟨?_, ?_, ?_, ?_, ?_, ?_⟩
    · rw [e, m]; simp [DataDict.appendRow]
    · rw [e, dt]; simp [DataDict.appendRow]
    · rw [e, sp]; simp [DataDict.appendRow]
    · rw [e, st]; simp [DataDict.appendRow]
    · rw [e, hr]; simp [DataDict.appendRow]
    · rw [e, tr]; simp [DataDict.appendRow]

/-- C7: whenever the load succeeds, the six columns are exactly the
index-aligned fields of the parsed rows of the non-blank data lines, in
source order with the header discarded and blank lines skipped; in
particular all six columns have equal length. -/
theorem build_success_claim (raw : List String) (d : DataDict)
    (h : build_data_dict raw initDataDict = (d, none)) :
    ∃ rows, mapME parseLineE (dataLines raw) = Except.ok rows ∧
      d.month = rows.map Row.month ∧ d.date = rows.map Row.date ∧
      d.sample = rows.map Row.sample_size ∧ d.sample_type = rows.map Row.sample_type ∧
      d.harris_result = rows.map Row.harris ∧ d.trump_result = rows.map Row.trump ∧
      WF d := by
  obtain ⟨rows, hm, hd⟩ := buildLines_ok (raw.drop 1) initDataDict d h
  obtain ⟨m, dt, sp, st, hr, tr⟩ := appendRows_cols rows initDataDict
  subst hd
  refine ⟨rows, hm, ?_, ?_, ?_, ?_, ?_, ?_, ?_⟩
  · rw [m]; simp [initDataDict]
  · rw [dt]; simp [initDataDict]
  · rw [sp]; simp [initDataDict]
  · rw [st]; simp [initDataDict]
  · rw [hr]; simp [initDataDict]
  · rw [tr]; simp [initDataDict]
  · unfold WF
    refine ⟨?_, ?_, ?_, ?_, ?_⟩
    · rw [dt, m]; simp [initDataDict]
    · rw [sp, m]; simp [initDataDict]
    · rw [st, m]; simp [initDataDict]
    · rw [hr, m]; simp [initDataDict]
    · rw [tr, m]; simp [initDataDict]

/-- C7, witnessed at a concrete raw input with a header line, two data
lines and a blank line. -/
theorem build_success_claim_w :
    build_data_dict ["h", "a,1,2 LV,0,1", " ", "b,2,3 A,1,0"] initDataDict =
      (⟨["a", "b"], [1, 2], [2, 3], ["LV", "A"], [0, 1], [1, 0]⟩, none) ∧
    (∃ rows,
      mapME parseLineE (dataLines ["h", "a,1,2 LV,0,1", " ", "b,2,3 A,1,0"]) = Except.ok rows ∧
      (⟨["a", "b"], [1, 2], [2, 3], ["LV", "A"], [0, 1], [1, 0]⟩ : DataDict).month =
        rows.map Row.month ∧
      (⟨["a", "b"], [1, 2], [2, 3], ["LV", "A"], [0, 1], [1, 0]⟩ : DataDict).date =
        rows.map Row.date ∧
      (⟨["a", "b"], [1, 2], [2, 3], ["LV", "A"], [0, 1], [1, 0]⟩ : DataDict).sample =
        rows.map Row.sample_size ∧
      (⟨["a", "b"], [1, 2], [2, 3], ["LV", "A"], [0, 1], [1, 0]⟩ : DataDict).sample_type =
        rows.map Row.sample_type ∧
      (⟨["a", "b"], [1, 2], [2, 3], ["LV", "A"], [0, 1], [1, 0]⟩ : DataDict).harris_result =
        rows.map Row.harris ∧
      (⟨["a", "b"], [1, 2], [2, 3], ["LV", "A"], [0, 1], [1, 0]⟩ : DataDict).trump_result =
        rows.map Row.trump ∧
      WF ⟨["a", "b"], [1, 2], [2, 3], ["LV", "A"], [0, 1], [1, 0]⟩) :=
  ⟨by with_unfolding_all decide,
   build_success_claim ["h", "a,1,2 LV,0,1", " ", "b,2,3 A,1,0"] _
     (by with_unfolding_all decide)⟩
theorem bind_error_cases {α β : Type} (a : Except PyError α) (f : α → Except PyError β)
    (e : PyError) (h : (a >>= f) = Except.error e) :
    a = Except.error e ∨ ∃ x, a = Except.ok x ∧ f x = Except.error e := by
  cases a with
  | error e2 =>
    left
    rw [error_bind] at h
    injection h with h2
    rw [h2]
  | ok x =>
    right
    exact ⟨x, rfl, by rwa [ok_bind] at h⟩

theorem pyIdx_error {α : Type} (l : List α) (i : Nat) (e : PyError)
    (h : pyIdx l i = Except.error e) : e = PyError.indexError := by
  unfold pyIdx at h
  split at h
  · exact absurd h (by simp)
  · injection h with h2
    exact h2.symm

theorem pyIdxLast_error {α : Type} (l : List α) (e : PyError)
    (h : pyIdxLast l = Except.error e) : e = PyError.indexError := by
  unfold pyIdxLast at h
  split at h
  · exact absurd h (by simp)
  · injection h with h2
    exact h2.symm

theorem pyToInt_error (s : String) (e : PyError)
    (h : pyToInt s = Except.error e) : e = PyError.valueError := by
  unfold pyToInt at h
  split at h
  · exact absurd h (by simp)
  · injection h with h2
    exact h2.symm

theorem pyToFloat_error (s : String) (e : PyError)
    (h : pyToFloat s = Except.error e) : e = PyError.valueError := by
  unfold pyToFloat at h
  split at h
  · exact absurd h (by simp)
  · injection h with h2
    exact h2.symm

theorem parseLineE_error_kind (s : String) (e : PyError)
    (h : parseLineE s = Except.error e) :
    e = PyError.indexError ∨ e = PyError.valueError := by
  simp only [parseLineE] at h
  rcases bind_error_cases _ _ _ h with h1 | ⟨x1, e1, h1⟩
  · exact Or.inl (pyIdx_error _ _ _ h1)
  rcases bind_error_cases _ _ _ h1 with h2 | ⟨x2, e2, h2⟩
  · exact Or.inl (pyIdx_error _ _ _ h2)
  rcases bind_error_cases _ _ _ h2 with h3 | ⟨x3, e3, h3⟩
  · exact Or.inr (pyToInt_error _ _ h3)
  rcases bind_error_cases _ _ _ h3 with h4 | ⟨x4, e4, h4⟩
  · exact Or.inl (pyIdx_error _ _ _ h4)
  rcases bind_error_cases _ _ _ h4 with h5 | ⟨x5, e5, h5⟩
  · exact Or.inl (pyIdx_error _ _ _ h5)
  rcases bind_error_cases _ _ _ h5 with h6 | ⟨x6, e6, h6⟩
  · exact Or.inr (pyToInt_error _ _ h6)
  rcases bind_error_cases _ _ _ h6 with h7 | ⟨x7, e7, h7⟩
  · exact Or.inl (pyIdxLast_error _ _ h7)
  rcases bind_error_cases _ _ _ h7 with h8 | ⟨x8, e8, h8⟩
  · exact Or.inl (pyIdx_error _ _ _ h8)
  rcases bind_error_cases _ _ _ h8 with h9 | ⟨x9, e9, h9⟩
  · exact Or.inr (pyToFloat_error _ _ h9)
  rcases bind_error_cases _ _ _ h9 with h10 | ⟨x10, e10, h10⟩
  · exact Or.inl (pyIdx_error _ _ _ h10)
  rcases bind_error_cases _ _ _ h10 with h11 | ⟨x11, e11, h11⟩
  · exact Or.inr (pyToFloat_error _ _ h11)
  · exact absurd h11 (by simp [pure_eq_ok])

theorem buildLines_fail (bad : String) (post : List String) (e : PyError)
    (hb1 : ¬ pyStrip bad = "") (hb2 : parseLineE (pyStrip bad) = Except.error e) :
    ∀ pre : List String,
      (∀ l ∈ pre, pyStrip l = "" ∨ exOk (parseLineE (pyStrip l)) = true) →
      ∀ d0 : DataDict,
        buildLines (pre ++ bad :: post) d0 = ((buildLines pre d0).1, some e) := by
  intro pre
  induction pre with
  | nil =>
    intro _ d0
    simp [buildLines, hb1, hb2]
  | cons l t ih =>
    intro hpre d0
    by_cases hbl : pyStrip l = ""
    · have hr := ih (fun x hx => hpre x (List.mem_cons_of_mem l hx)) d0
      simp [buildLines, hbl, hr]
    · rcases hpre l (List.mem_cons_self l t) with h0 | h0
      · exact absurd h0 hbl
      · cases hp : parseLineE (pyStrip l) with
        | error e2 =>
          rw [hp] at h0
          simp [exOk] at h0
        | ok r =>
          have hr := ih (fun x hx => hpre x (List.mem_cons_of_mem l hx)) (d0.appendRow r)
          simp [buildLines, hbl, hp, hr]

/-- C2 amended: when some stripped non-blank data line fails to parse —
too few comma fields, or a failed numeric conversion — while every line
before it is blank or parses, the load stops at that line with the
corresponding builtin `IndexError` or `ValueError` (the code defines no
`ParseError`), and the table retains exactly the rows appended for the
earlier lines (a partially populated state), the later lines never being
processed. -/
theorem build_fail_claim (raw pre : List String) (bad : String) (post : List String)
    (d0 : DataDict) (e : PyError)
    (hsplit : raw.drop 1 = pre ++ bad :: post)
    (hpre : ∀ l ∈ pre, pyStrip l = "" ∨ exOk (parseLineE (pyStrip l)) = true)
    (hb1 : ¬ pyStrip bad = "")
    (hb2 : parseLineE (pyStrip bad) = Except.error e) :
    build_data_dict raw d0 = ((buildLines pre d0).1, some e) ∧
    (e = PyError.indexError ∨ e = PyError.valueError) := by
  constructor
  · unfold build_data_dict
    rw [hsplit]
    exact buildLines_fail bad post e hb1 hb2 pre hpre d0
  · exact parseLineE_error_kind _ _ hb2

/-- C2 counterexample: a non-blank data line with six comma-separated
fields — not the "exactly 5" shape — on which the claim demands a fatal
`ParseError`; the load instead succeeds, ignoring the extra field. -/
theorem build_extra_field_loads :
    build_data_dict ["h", "a,1,1 A,0,0,x"] initDataDict =
      (⟨["a"], [1], [1], ["A"], [0], [0]⟩, none) := by
  with_unfolding_all decide

/-- C2 amended, witnessed at a concrete input whose first data line
parses and whose second data line has a single field. -/
theorem build_fail_claim_w :
    (["h", "a,1,2 LV,0,1", "bad"].drop 1 = ["a,1,2 LV,0,1"] ++ "bad" :: []) ∧
    (∀ l ∈ ["a,1,2 LV,0,1"], pyStrip l = "" ∨ exOk (parseLineE (pyStrip l)) = true) ∧
    (¬ pyStrip "bad" = "") ∧
    parseLineE (pyStrip "bad") = Except.error PyError.indexError ∧
    (build_data_dict ["h", "a,1,2 LV,0,1", "bad"] initDataDict =
      ((buildLines ["a,1,2 LV,0,1"] initDataDict).1, some PyError.indexError) ∧
     (PyError.indexError = PyError.indexError ∨ PyError.indexError = PyError.valueError)) :=
  ⟨rfl, by with_unfolding_all decide, by with_unfolding_all decide,
   by with_unfolding_all decide,
   build_fail_claim _ _ _ _ _ _ rfl (by with_unfolding_all decide)
     (by with_unfolding_all decide) (by with_unfolding_all decide)⟩
theorem pyMax_perm (l1 l2 : List Rat) (h : List.Perm l1 l2) : pyMax l1 = pyMax l2 := by
  cases l1 with
  | nil =>
    rw [List.Perm.eq_nil h.symm]
  | cons x xs =>
    cases l2 with
    | nil => exact absurd (List.Perm.eq_nil h) (by simp)
    | cons y ys =>
      have m1 := foldl_max_mem x xs
      have m2 := foldl_max_mem y ys
      have g1 := le_foldl_max y ys _ (h.mem_iff.mp m1)
      have g2 := le_foldl_max x xs _ (h.mem_iff.mpr m2)
      show Except.ok (xs.foldl max x) = Except.ok (ys.foldl max y)
      rw [le_antisymm g1 g2]

theorem tableRows_snd (d : DataDict)
    (h1 : d.date.length = d.month.length) (h2 : d.sample.length = d.month.length)
    (h3 : d.sample_type.length = d.month.length) (h4 : d.harris_result.length = d.month.length)
    (h5 : d.trump_result.length = d.month.length) :
    (tableRows d).map Prod.snd =
      d.date.zip (d.sample.zip (d.sample_type.zip (d.harris_result.zip d.trump_result))) := by
  apply List.map_snd_zip
  simp only [List.length_zip]
  omega

theorem tableRows_pair (d : DataDict) (w : WF d) :
    ((((tableRows d).map Prod.snd).map Prod.snd).map Prod.snd).map Prod.snd =
      d.harris_result.zip d.trump_result := by
  obtain ⟨h1, h2, h3, h4, h5⟩ := w
  rw [tableRows_snd d h1 h2 h3 h4 h5]
  rw [List.map_snd_zip _ _ (by simp only [List.length_zip]; omega)]
  rw [List.map_snd_zip _ _ (by simp only [List.length_zip]; omega)]
  rw [List.map_snd_zip _ _ (by simp only [List.length_zip]; omega)]

theorem perm_harris_of_rows (d d2 : DataDict) (w1 : WF d) (w2 : WF d2)
    (hp : List.Perm (tableRows d) (tableRows d2)) :
    List.Perm d.harris_result d2.harris_result := by
  have hpair : List.Perm (d.harris_result.zip d.trump_result)
      (d2.harris_result.zip d2.trump_result) := by
    have := ((((hp.map Prod.snd).map Prod.snd).map Prod.snd).map Prod.snd)
    rwa [tableRows_pair d w1, tableRows_pair d2 w2] at this
  have := hpair.map Prod.fst
  rwa [List.map_fst_zip _ _ (by obtain ⟨_, _, _, h4, h5⟩ := w1; omega),
    List.map_fst_zip _ _ (by obtain ⟨_, _, _, h4, h5⟩ := w2; omega)] at this

theorem perm_trump_of_rows (d d2 : DataDict) (w1 : WF d) (w2 : WF d2)
    (hp : List.Perm (tableRows d) (tableRows d2)) :
    List.Perm d.trump_result d2.trump_result := by
  have hpair : List.Perm (d.harris_result.zip d.trump_result)
      (d2.harris_result.zip d2.trump_result) := by
    have := ((((hp.map Prod.snd).map Prod.snd).map Prod.snd).map Prod.snd)
    rwa [tableRows_pair d w1, tableRows_pair d2 w2] at this
  have := hpair.map Prod.snd
  rwa [List.map_snd_zip _ _ (by obtain ⟨_, _, _, h4, h5⟩ := w1; omega),
    List.map_snd_zip _ _ (by obtain ⟨_, _, _, h4, h5⟩ := w2; omega)] at this

/-- C10: on a nonempty table, `highest_polling_candidate` is invariant
under permuting the rows (the same index permutation applied to all six
columns, expressed as a permutation of the index-aligned row tuples):
both column maxima are order-insensitive. -/
theorem highest_perm_claim (d d2 : DataDict) (w1 : WF d) (w2 : WF d2)
    (hne : d.month ≠ []) (hp : List.Perm (tableRows d) (tableRows d2)) :
    highest_polling_candidate d = highest_polling_candidate d2 := by
  have ph := perm_harris_of_rows d d2 w1 w2 hp
  have pt := perm_trump_of_rows d d2 w1 w2 hp
  unfold highest_polling_candidate
  rw [pyMax_perm _ _ ph, pyMax_perm _ _ pt]

/-- C10, witnessed at the two-row table `wTwo` and its row-swapped
companion `wTwoRev`. -/
theorem highest_perm_claim_w :
    WF wTwo ∧ WF wTwoRev ∧ wTwo.month ≠ [] ∧
    List.Perm (tableRows wTwo) (tableRows wTwoRev) ∧
    highest_polling_candidate wTwo = highest_polling_candidate wTwoRev :=
  ⟨⟨rfl, rfl, rfl, rfl, rfl⟩, ⟨rfl, rfl, rfl, rfl, rfl⟩, by decide,
   by with_unfolding_all decide,
   highest_perm_claim wTwo wTwoRev ⟨rfl, rfl, rfl, rfl, rfl⟩ ⟨rfl, rfl, rfl, rfl, rfl⟩
     (by decide) (by with_unfolding_all decide)⟩
